import Mathlib

/-!
Verification of the lesson progression state machine and tool-call dispatcher
of the live-api-example repository.

The state machine is embedded from the lesson context module: the enums
`LessonState`, `InstructionState`, `InstructionVerificationTaskInputType` and
`LessonContextActions`, the `Instruction` / `LessonContextState` records, the
per-action helper functions, and the reducer `InstructionsReducer`.

JavaScript `number` indices are modelled as `Int` (so that `currentIndex - 1`
can go negative, as in the source), `Date` timestamps as `Nat` values supplied
through a `now` parameter to the transition, and `Array.prototype.map`'s
callback with its index argument as `mapWithIndex`.  The reducer dispatches on
the string value of `action.type`, exactly as the compiled switch statement
does; the enum is embedded together with its string values.

The dispatcher is embedded from the lesson instructions component: `onToolCall`
builds one acknowledgement per incoming function call, dispatches the mapped
reducer action for the recognised tool names, and (for a non-empty batch)
produces one `ToolResponse` batch which the send effect delivers exactly once;
`sendToolResponseCount` counts the deliveries the effect performs for the
produced value.
-/

inductive LessonState where
  | Idle
  | InProgress
  | WaitingResponse
  | Completed
deriving DecidableEq, Repr

inductive InstructionState where
  | Idle
  | InProgress
  | WaitingResponse
  | Completed
deriving DecidableEq, Repr

inductive InstructionVerificationTaskInputType where
  | Text
  | Audio
  | Image
deriving DecidableEq, Repr

structure Instruction where
  task : String
  verificationTask : String
  verificationTaskInputType : InstructionVerificationTaskInputType
  completed : Option Nat
  state : InstructionState
deriving DecidableEq, Repr

structure LessonContextState where
  instructions : List Instruction
  state : LessonState
  currentInstructionIndex : Int
deriving DecidableEq, Repr

inductive LessonContextActions where
  | StartLesson
  | ResetLesson
  | CompleteLesson
  | WaitForResponse
  | MoveToNext
  | MoveToPrevious
deriving DecidableEq, Repr

/-- The string value of each member of the `LessonContextActions` enum. -/
def LessonContextActions.val : LessonContextActions → String
  | .StartLesson => "START_LESSON"
  | .ResetLesson => "RESET_LESSON"
  | .CompleteLesson => "COMPLETE_LESSON"
  | .WaitForResponse => "WAIT_FOR_RESPONSE"
  | .MoveToNext => "MOVE_TO_NEXT"
  | .MoveToPrevious => "MOVE_TO_PREVIOUS"

/-- `Array.prototype.map` with the element index passed to the callback,
starting the index count at `k`. -/
def mapFromIdx (f : Nat → α → β) : Nat → List α → List β
  | _, [] => []
  | k, x :: xs => f k x :: mapFromIdx f (k + 1) xs

/-- `l.map ((x, i) => f i x)` in the source. -/
def mapWithIndex (f : Nat → α → β) (l : List α) : List β :=
  mapFromIdx f 0 l

def markInstructionAsIdle (instruction : Instruction) : Instruction :=
  { instruction with completed := none, state := InstructionState.Idle }

def markInstructionAsInProgress (instruction : Instruction) : Instruction :=
  { instruction with completed := none, state := InstructionState.InProgress }

def markInstructionAsCompleted (now : Nat) (instruction : Instruction) :
    Instruction :=
  { instruction with completed := some now, state := InstructionState.Completed }

def markInstructionAsWaitingResponse (instruction : Instruction) : Instruction :=
  { instruction with state := InstructionState.WaitingResponse }

def markLessonAsIdle (ctx : LessonContextState) : LessonContextState :=
  { currentInstructionIndex := 0,
    instructions :=
      ctx.instructions.map (fun instruction => markInstructionAsIdle instruction),
    state := LessonState.Idle }

def markLessonAsCompleted (ctx : LessonContextState) : LessonContextState :=
  { ctx with state := LessonState.Completed }

def moveToNextInstruction (now : Nat) (ctx : LessonContextState) :
    LessonContextState :=
  let nextInstructionIndex : Int := ctx.currentInstructionIndex + 1
  if nextInstructionIndex < (ctx.instructions.length : Int) then
    { ctx with
      currentInstructionIndex := nextInstructionIndex,
      instructions := mapWithIndex (fun index instruction =>
        if (index : Int) = ctx.currentInstructionIndex then
          markInstructionAsCompleted now instruction
        else if (index : Int) = nextInstructionIndex then
          markInstructionAsInProgress instruction
        else instruction) ctx.instructions }
  else
    markLessonAsCompleted ctx

def moveToPreviousInstruction (ctx : LessonContextState) : LessonContextState :=
  let previousInstructionIndex : Int := ctx.currentInstructionIndex - 1
  if previousInstructionIndex > 0 then
    { ctx with
      currentInstructionIndex := previousInstructionIndex,
      instructions := mapWithIndex (fun index instruction =>
        if (index : Int) = ctx.currentInstructionIndex then
          markInstructionAsIdle instruction
        else if (index : Int) = previousInstructionIndex then
          markInstructionAsInProgress instruction
        else instruction) ctx.instructions }
  else
    markLessonAsIdle ctx

def startLesson (ctx : LessonContextState) : LessonContextState :=
  { ctx with
    instructions := mapWithIndex (fun index instruction =>
      if index = 0 then markInstructionAsInProgress instruction
      else if instruction.state ≠ InstructionState.Idle then
        markInstructionAsIdle instruction
      else instruction) ctx.instructions,
    state := LessonState.InProgress,
    currentInstructionIndex := 0 }

def completeLesson (now : Nat) (ctx : LessonContextState) : LessonContextState :=
  { ctx with
    instructions :=
      ctx.instructions.map (fun instruction =>
        markInstructionAsCompleted now instruction),
    state := LessonState.Completed }

def waitForResponse (ctx : LessonContextState) : LessonContextState :=
  { ctx with
    instructions := ctx.instructions.map (fun instruction =>
      if instruction.state = InstructionState.InProgress then
        markInstructionAsWaitingResponse instruction
      else instruction),
    state := LessonState.WaitingResponse }

/-- The reducer's switch statement, dispatching on the string value of
`action.type`; the `default` branch returns the state unchanged. -/
def InstructionsReducer (state : LessonContextState) (actionType : String)
    (now : Nat) : LessonContextState :=
  if actionType = "START_LESSON" then startLesson state
  else if actionType = "MOVE_TO_NEXT" then moveToNextInstruction now state
  else if actionType = "MOVE_TO_PREVIOUS" then moveToPreviousInstruction state
  else if actionType = "WAIT_FOR_RESPONSE" then waitForResponse state
  else if actionType = "RESET_LESSON" then markLessonAsIdle state
  else if actionType = "COMPLETE_LESSON" then completeLesson now state
  else state

/-- The reducer applied to a member of the actions enum. -/
def transition (s : LessonContextState) (a : LessonContextActions) (now : Nat) :
    LessonContextState :=
  InstructionsReducer s a.val now

/-- A finite sequence of dispatched actions, each with the timestamp at which
it was processed. -/
def runActions (s : LessonContextState) :
    List (LessonContextActions × Nat) → LessonContextState
  | [] => s
  | (a, now) :: rest => runActions (transition s a now) rest

/-- An instruction holding one of the two transient statuses. -/
def isActive (ins : Instruction) : Prop :=
  ins.state = InstructionState.InProgress ∨
    ins.state = InstructionState.WaitingResponse

/-- At most one instruction of the session is InProgress or WaitingResponse. -/
def AtMostOneActive (s : LessonContextState) : Prop :=
  ∀ (i j : Nat) (a b : Instruction),
    s.instructions[i]? = some a → s.instructions[j]? = some b →
    isActive a → isActive b → i = j

/-- Inductive invariant: any active instruction sits at the current index. -/
def ActiveOnlyAtCurrent (s : LessonContextState) : Prop :=
  ∀ (i : Nat) (a : Instruction), s.instructions[i]? = some a → isActive a →
    (i : Int) = s.currentInstructionIndex

/-- The static fields of an instruction coincide. -/
def sameStatic (a b : Instruction) : Prop :=
  a.task = b.task ∧ a.verificationTask = b.verificationTask ∧
    a.verificationTaskInputType = b.verificationTaskInputType

structure FunctionCall where
  id : String
  name : String
deriving DecidableEq, Repr

structure ResponseObject where
  id : String
  name : String
  result : String
deriving DecidableEq, Repr

structure ToolResponse where
  functionResponses : List ResponseObject
deriving DecidableEq, Repr

/-- The tool-name → reducer-action mapping realised by the dispatcher's switch
statement; names without a case yield no action. -/
def toolNameAction (name : String) : Option LessonContextActions :=
  if name = "start_lesson" then some LessonContextActions.StartLesson
  else if name = "reset_lesson" then some LessonContextActions.ResetLesson
  else if name = "complete_lesson" then some LessonContextActions.CompleteLesson
  else if name = "verify_step" then some LessonContextActions.MoveToNext
  else if name = "go_to_next_step" then some LessonContextActions.MoveToNext
  else if name = "go_to_previous_step" then
    some LessonContextActions.MoveToPrevious
  else none

/-- The acknowledgement payload built for every function call. -/
def buildFunctionResponse (fCall : FunctionCall) : ResponseObject :=
  { id := fCall.id, name := fCall.name, result := fCall.name ++ " OK." }

/-- The state effect of a single function call: dispatch the mapped action if
the name is recognised, otherwise leave the session untouched. -/
def dispatchStep (now : Nat) (st : LessonContextState) (fCall : FunctionCall) :
    LessonContextState :=
  match toolNameAction fCall.name with
  | some a => transition st a now
  | none => st

/-- The `onToolCall` handler: for a non-empty batch, dispatch every recognised
call in order and produce the acknowledgement batch; for an empty batch do
nothing and produce no batch. -/
def onToolCall (now : Nat) (s : LessonContextState)
    (fCalls : List FunctionCall) : LessonContextState × Option ToolResponse :=
  if 0 < fCalls.length then
    (fCalls.foldl (dispatchStep now) s,
      some { functionResponses := fCalls.map buildFunctionResponse })
  else (s, none)

/-- The send effect delivers each produced batch exactly once and a missing
batch never. -/
def sendToolResponseCount (r : Option ToolResponse) : Nat :=
  match r with
  | some _ => 1
  | none => 0

/-- A sample instruction used for concrete witnesses. -/
def sampleIdleInstr : Instruction :=
  { task := "open the editor",
    verificationTask := "check the screen",
    verificationTaskInputType := InstructionVerificationTaskInputType.Image,
    completed := none,
    state := InstructionState.Idle }

/-- A sample in-progress instruction used for the C1 counterexample. -/
def sampleActiveInstr : Instruction :=
  { sampleIdleInstr with state := InstructionState.InProgress }

/-- A one-instruction session sitting at its last index, in progress. -/
def lastIndexSession : LessonContextState :=
  { instructions := [sampleActiveInstr],
    state := LessonState.InProgress,
    currentInstructionIndex := 0 }

/-- A fresh two-instruction session, never started. -/
def freshSession : LessonContextState :=
  { instructions := [sampleIdleInstr, sampleIdleInstr],
    state := LessonState.Idle,
    currentInstructionIndex := 0 }

/-- The dispatcher scenario batch from the specification. -/
def sampleBatch : List FunctionCall :=
  [{ id := "a", name := "go_to_next_step" },
   { id := "b", name := "unknown_tool" }]

theorem length_mapFromIdx (f : Nat → α → β) (k : Nat) (l : List α) :
    (mapFromIdx f k l).length = l.length := by
  induction l generalizing k with
  | nil => rfl
  | cons x xs ih => simp [mapFromIdx, ih]

theorem length_mapWithIndex (f : Nat → α → β) (l : List α) :
    (mapWithIndex f l).length = l.length :=
  length_mapFromIdx f 0 l

theorem getElem?_mapFromIdx (f : Nat → α → β) (k i : Nat) (l : List α) :
    (mapFromIdx f k l)[i]? = (l[i]?).map (f (k + i)) := by
  induction l generalizing k i with
  | nil => simp [mapFromIdx]
  | cons x xs ih =>
    cases i with
    | zero => simp [mapFromIdx]
    | succ n =>
      simp only [mapFromIdx, List.getElem?_cons_succ, ih (k + 1) n]
      have : k + 1 + n = k + (n + 1) := by omega
      rw [this]

theorem getElem?_mapWithIndex (f : Nat → α → β) (i : Nat) (l : List α) :
    (mapWithIndex f l)[i]? = (l[i]?).map (f i) := by
  simpa using getElem?_mapFromIdx f 0 i l

theorem transition_startLesson (s : LessonContextState) (now : Nat) :
    transition s LessonContextActions.StartLesson now = startLesson s := rfl

theorem transition_moveToNext (s : LessonContextState) (now : Nat) :
    transition s LessonContextActions.MoveToNext now =
      moveToNextInstruction now s := rfl

theorem transition_moveToPrevious (s : LessonContextState) (now : Nat) :
    transition s LessonContextActions.MoveToPrevious now =
      moveToPreviousInstruction s := rfl

theorem transition_waitForResponse (s : LessonContextState) (now : Nat) :
    transition s LessonContextActions.WaitForResponse now =
      waitForResponse s := rfl

theorem transition_resetLesson (s : LessonContextState) (now : Nat) :
    transition s LessonContextActions.ResetLesson now = markLessonAsIdle s := rfl

theorem transition_completeLesson (s : LessonContextState) (now : Nat) :
    transition s LessonContextActions.CompleteLesson now =
      completeLesson now s := rfl

theorem markInstructionAsIdle_idem (x : Instruction) :
    markInstructionAsIdle (markInstructionAsIdle x) = markInstructionAsIdle x :=
  rfl

theorem markLessonAsIdle_idem (s : LessonContextState) :
    markLessonAsIdle (markLessonAsIdle s) = markLessonAsIdle s := by
  simp only [markLessonAsIdle, List.map_map, Function.comp_def,
    markInstructionAsIdle_idem]

/-- Claim C5: ResetLesson yields status Idle, currentIndex 0, every instruction
Idle with no completion timestamp, and a second ResetLesson applied to the
result yields the same session (idempotence). -/
theorem c5_resetLesson_idle_idempotent (s : LessonContextState)
    (now now2 : Nat) :
    (transition s LessonContextActions.ResetLesson now).state = LessonState.Idle
    ∧ (transition s LessonContextActions.ResetLesson now).currentInstructionIndex
        = 0
    ∧ (∀ ins ∈ (transition s LessonContextActions.ResetLesson now).instructions,
        ins.state = InstructionState.Idle ∧ ins.completed = none)
    ∧ transition (transition s LessonContextActions.ResetLesson now)
        LessonContextActions.ResetLesson now2
        = transition s LessonContextActions.ResetLesson now := by
  refine ⟨rfl, rfl, ?_, ?_⟩
  · intro ins hins
    rw [transition_resetLesson] at hins
    simp only [markLessonAsIdle, List.mem_map] at hins
    obtain ⟨x, -, rfl⟩ := hins
    exact ⟨rfl, rfl⟩
  · rw [transition_resetLesson, transition_resetLesson, markLessonAsIdle_idem]

/-- Claim C6: CompleteLesson yields status Completed, every instruction with
state Completed, and currentIndex unchanged, whatever the input session. -/
theorem c6_completeLesson_all_completed (s : LessonContextState) (now : Nat) :
    (transition s LessonContextActions.CompleteLesson now).state
        = LessonState.Completed
    ∧ (transition s LessonContextActions.CompleteLesson now).currentInstructionIndex
        = s.currentInstructionIndex
    ∧ ∀ ins ∈ (transition s LessonContextActions.CompleteLesson now).instructions,
        ins.state = InstructionState.Completed := by
  refine ⟨rfl, rfl, ?_⟩
  intro ins hins
  rw [transition_completeLesson] at hins
  simp only [completeLesson, List.mem_map] at hins
  obtain ⟨x, -, rfl⟩ := hins
  rfl

/-- Claim C7: for any action-type value outside the six recognised string
values, the reducer returns the input session unchanged (the embedding is a
total function, so no exception is possible). -/
theorem c7_unrecognized_action_identity (s : LessonContextState) (t : String)
    (now : Nat)
    (h : t ≠ "START_LESSON" ∧ t ≠ "MOVE_TO_NEXT" ∧ t ≠ "MOVE_TO_PREVIOUS"
      ∧ t ≠ "WAIT_FOR_RESPONSE" ∧ t ≠ "RESET_LESSON"
      ∧ t ≠ "COMPLETE_LESSON") :
    InstructionsReducer s t now = s := by
  obtain ⟨h1, h2, h3, h4, h5, h6⟩ := h
  simp [InstructionsReducer, h1, h2, h3, h4, h5, h6]

/-- Witness for C7 at the concrete unrecognized action value "UNKNOWN". -/
theorem c7_unrecognized_action_identity_witness :
    InstructionsReducer freshSession "UNKNOWN" 0 = freshSession :=
  c7_unrecognized_action_identity freshSession "UNKNOWN" 0
    ⟨by decide, by decide, by decide, by decide, by decide, by decide⟩

theorem moveToNextInstruction_of_last (now : Nat) (ctx : LessonContextState)
    (h : ¬ ctx.currentInstructionIndex + 1 < (ctx.instructions.length : Int)) :
    moveToNextInstruction now ctx = markLessonAsCompleted ctx := by
  simp only [moveToNextInstruction, h, if_false]

theorem moveToNextInstruction_of_lt (now : Nat) (ctx : LessonContextState)
    (h : ctx.currentInstructionIndex + 1 < (ctx.instructions.length : Int)) :
    moveToNextInstruction now ctx =
      { ctx with
        currentInstructionIndex := ctx.currentInstructionIndex + 1,
        instructions := mapWithIndex (fun index instruction =>
          if (index : Int) = ctx.currentInstructionIndex then
            markInstructionAsCompleted now instruction
          else if (index : Int) = ctx.currentInstructionIndex + 1 then
            markInstructionAsInProgress instruction
          else instruction) ctx.instructions } := by
  simp only [moveToNextInstruction, h, if_true]

theorem moveToPreviousInstruction_of_le (ctx : LessonContextState)
    (h : ¬ ctx.currentInstructionIndex - 1 > 0) :
    moveToPreviousInstruction ctx = markLessonAsIdle ctx := by
  simp only [moveToPreviousInstruction, h, if_false]

theorem moveToPreviousInstruction_of_gt (ctx : LessonContextState)
    (h : ctx.currentInstructionIndex - 1 > 0) :
    moveToPreviousInstruction ctx =
      { ctx with
        currentInstructionIndex := ctx.currentInstructionIndex - 1,
        instructions := mapWithIndex (fun index instruction =>
          if (index : Int) = ctx.currentInstructionIndex then
            markInstructionAsIdle instruction
          else if (index : Int) = ctx.currentInstructionIndex - 1 then
            markInstructionAsInProgress instruction
          else instruction) ctx.instructions } := by
  simp only [moveToPreviousInstruction, h, if_true]

/-- Claim C1 (amended): MoveToNext at the last valid index of a non-empty
instructions list, with the session InProgress or WaitingResponse, yields
session status Completed and leaves currentIndex and the whole instructions
list unchanged (the current instruction keeps its prior status; it is not
marked Completed). -/
theorem c1_moveToNext_at_last_index (s : LessonContextState) (now : Nat)
    (hne : s.instructions ≠ [])
    (hidx : s.currentInstructionIndex = (s.instructions.length : Int) - 1)
    (hst : s.state = LessonState.InProgress
      ∨ s.state = LessonState.WaitingResponse) :
    (transition s LessonContextActions.MoveToNext now).state
        = LessonState.Completed
    ∧ (transition s LessonContextActions.MoveToNext now).currentInstructionIndex
        = s.currentInstructionIndex
    ∧ (transition s LessonContextActions.MoveToNext now).instructions
        = s.instructions := by
  rw [transition_moveToNext,
    moveToNextInstruction_of_last now s (by rw [hidx]; omega)]
  exact ⟨rfl, rfl, rfl⟩

/-- Witness for the amended C1 at a concrete one-instruction session. -/
theorem c1_moveToNext_at_last_index_witness :
    lastIndexSession.instructions ≠ []
    ∧ (transition lastIndexSession LessonContextActions.MoveToNext 5).state
        = LessonState.Completed
    ∧ (transition lastIndexSession
        LessonContextActions.MoveToNext 5).currentInstructionIndex
        = lastIndexSession.currentInstructionIndex
    ∧ (transition lastIndexSession LessonContextActions.MoveToNext 5).instructions
        = lastIndexSession.instructions :=
  ⟨by decide,
    c1_moveToNext_at_last_index lastIndexSession 5 (by decide) (by decide)
      (Or.inl rfl)⟩

/-- Counterexample to C1 as stated: at the last index the session status
becomes Completed, but the current instruction keeps status InProgress — it is
not marked Completed. -/
theorem c1_counterexample :
    lastIndexSession.instructions ≠ []
    ∧ lastIndexSession.currentInstructionIndex
        = (lastIndexSession.instructions.length : Int) - 1
    ∧ lastIndexSession.state = LessonState.InProgress
    ∧ (transition lastIndexSession LessonContextActions.MoveToNext 0).state
        = LessonState.Completed
    ∧ (transition lastIndexSession
        LessonContextActions.MoveToNext 0).instructions[0]?
        = some sampleActiveInstr
    ∧ sampleActiveInstr.state ≠ InstructionState.Completed :=
  ⟨by decide, by decide, rfl, rfl, rfl, by decide⟩

/-- Claim C4: with currentIndex 0 or 1, MoveToPrevious coincides with
ResetLesson: status Idle, all instructions Idle, currentIndex 0. -/
theorem c4_moveToPrevious_at_start_is_reset (s : LessonContextState)
    (now now2 : Nat)
    (h : s.currentInstructionIndex = 0 ∨ s.currentInstructionIndex = 1) :
    transition s LessonContextActions.MoveToPrevious now
        = transition s LessonContextActions.ResetLesson now2
    ∧ (transition s LessonContextActions.MoveToPrevious now).state
        = LessonState.Idle
    ∧ (transition s
        LessonContextActions.MoveToPrevious now).currentInstructionIndex = 0
    ∧ ∀ ins ∈ (transition s LessonContextActions.MoveToPrevious now).instructions,
        ins.state = InstructionState.Idle := by
  have hmv : transition s LessonContextActions.MoveToPrevious now
      = markLessonAsIdle s := by
    rw [transition_moveToPrevious]
    exact moveToPreviousInstruction_of_le s (by rcases h with h | h <;> omega)
  rw [hmv, transition_resetLesson]
  refine ⟨rfl, rfl, rfl, ?_⟩
  intro ins hins
  simp only [markLessonAsIdle, List.mem_map] at hins
  obtain ⟨x, -, rfl⟩ := hins
  rfl

/-- Witness for C4 at a concrete just-started session (currentIndex 0). -/
theorem c4_moveToPrevious_at_start_is_reset_witness :
    transition freshSession LessonContextActions.MoveToPrevious 3
        = transition freshSession LessonContextActions.ResetLesson 7
    ∧ (transition freshSession LessonContextActions.MoveToPrevious 3).state
        = LessonState.Idle :=
  ⟨(c4_moveToPrevious_at_start_is_reset freshSession 3 7 (Or.inl rfl)).1,
    (c4_moveToPrevious_at_start_is_reset freshSession 3 7 (Or.inl rfl)).2.1⟩

/-- Claim C9: on a never-started session (status Idle, currentIndex 0, at
least two instructions), MoveToNext completes instruction 0 (with a
timestamp), puts instruction 1 InProgress, sets currentIndex to 1, and leaves
the session-level status Idle. -/
theorem c9_moveToNext_on_idle_session (s : LessonContextState) (now : Nat)
    (hIdle : s.state = LessonState.Idle)
    (hci : s.currentInstructionIndex = 0)
    (hlen : 2 ≤ s.instructions.length) :
    (transition s LessonContextActions.MoveToNext now).state = LessonState.Idle
    ∧ (transition s
        LessonContextActions.MoveToNext now).currentInstructionIndex = 1
    ∧ (∃ j0, (transition s LessonContextActions.MoveToNext now).instructions[0]?
          = some j0
        ∧ j0.state = InstructionState.Completed ∧ j0.completed = some now)
    ∧ ∃ j1, (transition s LessonContextActions.MoveToNext now).instructions[1]?
          = some j1
        ∧ j1.state = InstructionState.InProgress := by
  have hcond : s.currentInstructionIndex + 1 < (s.instructions.length : Int) := by
    rw [hci]; omega
  rw [transition_moveToNext, moveToNextInstruction_of_lt now s hcond]
  refine ⟨hIdle, ?_, ?_, ?_⟩
  · show s.currentInstructionIndex + 1 = 1
    rw [hci]; omega
  · obtain ⟨x, hx⟩ : ∃ x, s.instructions[0]? = some x :=
      ⟨_, List.getElem?_eq_getElem (by omega)⟩
    refine ⟨markInstructionAsCompleted now x, ?_, rfl, rfl⟩
    show (mapWithIndex _ s.instructions)[0]? = _
    rw [getElem?_mapWithIndex, hx]
    simp [hci]
  · obtain ⟨y, hy⟩ : ∃ y, s.instructions[1]? = some y :=
      ⟨_, List.getElem?_eq_getElem (by omega)⟩
    refine ⟨markInstructionAsInProgress y, ?_, rfl⟩
    show (mapWithIndex _ s.instructions)[1]? = _
    rw [getElem?_mapWithIndex, hy]
    simp [hci]

/-- Witness for C9 at a concrete fresh two-instruction session. -/
theorem c9_moveToNext_on_idle_session_witness :
    (transition freshSession LessonContextActions.MoveToNext 42).state
        = LessonState.Idle
    ∧ (transition freshSession
        LessonContextActions.MoveToNext 42).currentInstructionIndex = 1
    ∧ (∃ j0, (transition freshSession
          LessonContextActions.MoveToNext 42).instructions[0]? = some j0
        ∧ j0.state = InstructionState.Completed ∧ j0.completed = some 42)
    ∧ ∃ j1, (transition freshSession
          LessonContextActions.MoveToNext 42).instructions[1]? = some j1
        ∧ j1.state = InstructionState.InProgress :=
  c9_moveToNext_on_idle_session freshSession 42 rfl rfl (by decide)

theorem sameStatic_of_map {g : Instruction → Instruction}
    (hg : ∀ x, sameStatic (g x) x) {l : List Instruction} {i : Nat}
    {ja jb : Instruction} (ha : (l.map g)[i]? = some ja)
    (hb : l[i]? = some jb) : sameStatic ja jb := by
  rw [List.getElem?_map, hb, Option.map_some'] at ha
  obtain rfl : g jb = ja := Option.some.inj ha
  exact hg jb

theorem sameStatic_of_mapWithIndex {f : Nat → Instruction → Instruction}
    (hf : ∀ i x, sameStatic (f i x) x) {l : List Instruction} {i : Nat}
    {ja jb : Instruction} (ha : (mapWithIndex f l)[i]? = some ja)
    (hb : l[i]? = some jb) : sameStatic ja jb := by
  rw [getElem?_mapWithIndex, hb, Option.map_some'] at ha
  obtain rfl : f i jb = ja := Option.some.inj ha
  exact hf i jb

theorem transition_instructions_shape (s : LessonContextState)
    (a : LessonContextActions) (now : Nat) :
    (transition s a now).instructions = s.instructions
    ∨ (∃ g : Instruction → Instruction, (∀ x, sameStatic (g x) x) ∧
        (transition s a now).instructions = s.instructions.map g)
    ∨ ∃ f : Nat → Instruction → Instruction, (∀ i x, sameStatic (f i x) x) ∧
        (transition s a now).instructions = mapWithIndex f s.instructions := by
  cases a with
  | StartLesson =>
    rw [transition_startLesson]
    refine Or.inr (Or.inr ⟨_, ?_, rfl⟩)
    intro i x
    repeat' split
    all_goals exact ⟨rfl, rfl, rfl⟩
  | MoveToNext =>
    rw [transition_moveToNext]
    by_cases h : s.currentInstructionIndex + 1 < (s.instructions.length : Int)
    · rw [moveToNextInstruction_of_lt now s h]
      refine Or.inr (Or.inr ⟨_, ?_, rfl⟩)
      intro i x
      repeat' split
      all_goals exact ⟨rfl, rfl, rfl⟩
    · rw [moveToNextInstruction_of_last now s h]
      exact Or.inl rfl
  | MoveToPrevious =>
    rw [transition_moveToPrevious]
    by_cases h : s.currentInstructionIndex - 1 > 0
    · rw [moveToPreviousInstruction_of_gt s h]
      refine Or.inr (Or.inr ⟨_, ?_, rfl⟩)
      intro i x
      repeat' split
      all_goals exact ⟨rfl, rfl, rfl⟩
    · rw [moveToPreviousInstruction_of_le s h]
      exact Or.inr (Or.inl ⟨fun instruction => markInstructionAsIdle instruction,
        fun x => ⟨rfl, rfl, rfl⟩, rfl⟩)
  | WaitForResponse =>
    rw [transition_waitForResponse]
    refine Or.inr (Or.inl ⟨_, ?_, rfl⟩)
    intro x
    split
    all_goals exact ⟨rfl, rfl, rfl⟩
  | ResetLesson =>
    rw [transition_resetLesson]
    exact Or.inr (Or.inl ⟨fun instruction => markInstructionAsIdle instruction,
      fun x => ⟨rfl, rfl, rfl⟩, rfl⟩)
  | CompleteLesson =>
    rw [transition_completeLesson]
    exact Or.inr (Or.inl ⟨fun instruction => markInstructionAsCompleted now instruction,
      fun x => ⟨rfl, rfl, rfl⟩, rfl⟩)

/-- Claim C8: every transition preserves the length of the instructions list
and, at each index, the task, verificationTask and verificationTaskInputType
fields — instructions are never reordered, inserted, or removed. -/
theorem c8_transition_frame (s : LessonContextState)
    (a : LessonContextActions) (now : Nat) :
    (transition s a now).instructions.length = s.instructions.length
    ∧ ∀ (i : Nat) (ja jb : Instruction),
        (transition s a now).instructions[i]? = some ja →
        s.instructions[i]? = some jb → sameStatic ja jb := by
  rcases transition_instructions_shape s a now with h | ⟨g, hg, h⟩ | ⟨f, hf, h⟩
  · rw [h]
    refine ⟨rfl, ?_⟩
    intro i ja jb ha hb
    rw [ha] at hb
    obtain rfl := Option.some.inj hb
    exact ⟨rfl, rfl, rfl⟩
  · rw [h]
    refine ⟨by simp, ?_⟩
    intro i ja jb ha hb
    exact sameStatic_of_map hg ha hb
  · rw [h]
    refine ⟨length_mapWithIndex _ _, ?_⟩
    intro i ja jb ha hb
    exact sameStatic_of_mapWithIndex hf ha hb

theorem foldl_dispatchStep_filterMap (now : Nat) (s : LessonContextState)
    (fCalls : List FunctionCall) :
    fCalls.foldl (dispatchStep now) s
      = (fCalls.filterMap (fun c => toolNameAction c.name)).foldl
          (fun st a => transition st a now) s := by
  induction fCalls generalizing s with
  | nil => rfl
  | cons c cs ih =>
    cases hc : toolNameAction c.name with
    | none =>
      have hd : dispatchStep now s c = s := by simp [dispatchStep, hc]
      simp only [List.foldl_cons, List.filterMap_cons, hc, hd, ih]
    | some a =>
      have hd : dispatchStep now s c = transition s a now := by
        simp [dispatchStep, hc]
      simp only [List.foldl_cons, List.filterMap_cons, hc, hd, ih]

theorem onToolCall_nonempty (now : Nat) (s : LessonContextState)
    (fCalls : List FunctionCall) (h : fCalls ≠ []) :
    onToolCall now s fCalls =
      (fCalls.foldl (dispatchStep now) s,
        some { functionResponses := fCalls.map buildFunctionResponse }) := by
  unfold onToolCall
  rw [if_pos (List.length_pos.mpr h)]

/-- Claim C3: for a non-empty tool-call batch the dispatcher produces exactly
one acknowledgement per request — same index, same call id, same tool name,
result text "<toolName> OK." — including requests with unrecognised names; the
batch is handed to sendToolResponse exactly once; and the session effect is
exactly the fold of the recognised actions (unknown names contribute no
transition). -/
theorem c3_dispatcher_acknowledges_all (now : Nat) (s : LessonContextState)
    (fCalls : List FunctionCall) (h : fCalls ≠ []) :
    ∃ tr : ToolResponse,
      (onToolCall now s fCalls).2 = some tr
      ∧ tr.functionResponses.length = fCalls.length
      ∧ (∀ (i : Nat) (r : ResponseObject) (c : FunctionCall),
          tr.functionResponses[i]? = some r → fCalls[i]? = some c →
          r.id = c.id ∧ r.name = c.name ∧ r.result = c.name ++ " OK.")
      ∧ sendToolResponseCount (onToolCall now s fCalls).2 = 1
      ∧ (onToolCall now s fCalls).1
          = (fCalls.filterMap (fun c => toolNameAction c.name)).foldl
              (fun st a => transition st a now) s := by
  rw [onToolCall_nonempty now s fCalls h]
  refine ⟨_, rfl, by simp, ?_, rfl, foldl_dispatchStep_filterMap now s fCalls⟩
  intro i r c hr hc
  have hr' : (fCalls.map buildFunctionResponse)[i]? = some r := hr
  rw [List.getElem?_map, hc, Option.map_some'] at hr'
  obtain rfl := Option.some.inj hr'
  exact ⟨rfl, rfl, rfl⟩

/-- Witness for C3 at the specification's concrete two-call batch (one
recognised name, one unknown). -/
theorem c3_dispatcher_acknowledges_all_witness :
    sampleBatch ≠ []
    ∧ ∃ tr : ToolResponse,
        (onToolCall 0 freshSession sampleBatch).2 = some tr
        ∧ tr.functionResponses.length = sampleBatch.length :=
  ⟨by decide,
    Exists.elim (c3_dispatcher_acknowledges_all 0 freshSession sampleBatch
        (by decide))
      (fun tr htr => ⟨tr, htr.1, htr.2.1⟩)⟩

/-- Claim C10: an empty tool-call batch produces no acknowledgements, never
reaches sendToolResponse, and leaves the session unchanged. -/
theorem c10_empty_batch_noop (now : Nat) (s : LessonContextState) :
    onToolCall now s [] = (s, none)
    ∧ sendToolResponseCount (onToolCall now s []).2 = 0 :=
  ⟨rfl, rfl⟩

theorem not_isActive_of_idle (x : Instruction)
    (h : x.state = InstructionState.Idle) : ¬ isActive x := by
  rintro (h2 | h2) <;> rw [h] at h2 <;> simp at h2

theorem not_isActive_markIdle (x : Instruction) :
    ¬ isActive (markInstructionAsIdle x) :=
  not_isActive_of_idle _ rfl

theorem not_isActive_markCompleted (now : Nat) (x : Instruction) :
    ¬ isActive (markInstructionAsCompleted now x) := by
  rintro (h2 | h2) <;> simp [markInstructionAsCompleted] at h2

theorem inv_preserved (s : LessonContextState) (a : LessonContextActions)
    (now : Nat) (hs : ActiveOnlyAtCurrent s) :
    ActiveOnlyAtCurrent (transition s a now) := by
  cases a with
  | StartLesson =>
    rw [transition_startLesson]
    intro i x hx hact
    show (i : Int) = 0
    have hx' : (mapWithIndex (fun index instruction =>
        if index = 0 then markInstructionAsInProgress instruction
        else if instruction.state ≠ InstructionState.Idle then
          markInstructionAsIdle instruction
        else instruction) s.instructions)[i]? = some x := hx
    rw [getElem?_mapWithIndex, Option.map_eq_some'] at hx'
    obtain ⟨y, hy, hfy⟩ := hx'
    by_cases h0 : i = 0
    · simp [h0]
    · rw [if_neg h0] at hfy
      by_cases h1 : y.state ≠ InstructionState.Idle
      · rw [if_pos h1] at hfy
        subst hfy
        exact absurd hact (not_isActive_markIdle y)
      · rw [if_neg h1] at hfy
        subst hfy
        push_neg at h1
        exact absurd hact (not_isActive_of_idle y h1)
  | MoveToNext =>
    rw [transition_moveToNext]
    by_cases h : s.currentInstructionIndex + 1 < (s.instructions.length : Int)
    · rw [moveToNextInstruction_of_lt now s h]
      intro i x hx hact
      show (i : Int) = s.currentInstructionIndex + 1
      have hx' : (mapWithIndex (fun index instruction =>
          if (index : Int) = s.currentInstructionIndex then
            markInstructionAsCompleted now instruction
          else if (index : Int) = s.currentInstructionIndex + 1 then
            markInstructionAsInProgress instruction
          else instruction) s.instructions)[i]? = some x := hx
      rw [getElem?_mapWithIndex, Option.map_eq_some'] at hx'
      obtain ⟨y, hy, hfy⟩ := hx'
      by_cases h0 : (i : Int) = s.currentInstructionIndex
      · rw [if_pos h0] at hfy
        subst hfy
        exact absurd hact (not_isActive_markCompleted now y)
      · rw [if_neg h0] at hfy
        by_cases h1 : (i : Int) = s.currentInstructionIndex + 1
        · exact h1
        · rw [if_neg h1] at hfy
          subst hfy
          exact absurd (hs i y hy hact) h0
    · rw [moveToNextInstruction_of_last now s h]
      intro i x hx hact
      show (i : Int) = s.currentInstructionIndex
      exact hs i x hx hact
  | MoveToPrevious =>
    rw [transition_moveToPrevious]
    by_cases h : s.currentInstructionIndex - 1 > 0
    · rw [moveToPreviousInstruction_of_gt s h]
      intro i x hx hact
      show (i : Int) = s.currentInstructionIndex - 1
      have hx' : (mapWithIndex (fun index instruction =>
          if (index : Int) = s.currentInstructionIndex then
            markInstructionAsIdle instruction
          else if (index : Int) = s.currentInstructionIndex - 1 then
            markInstructionAsInProgress instruction
          else instruction) s.instructions)[i]? = some x := hx
      rw [getElem?_mapWithIndex, Option.map_eq_some'] at hx'
      obtain ⟨y, hy, hfy⟩ := hx'
      by_cases h0 : (i : Int) = s.currentInstructionIndex
      · rw [if_pos h0] at hfy
        subst hfy
        exact absurd hact (not_isActive_markIdle y)
      · rw [if_neg h0] at hfy
        by_cases h1 : (i : Int) = s.currentInstructionIndex - 1
        · exact h1
        · rw [if_neg h1] at hfy
          subst hfy
          exact absurd (hs i y hy hact) h0
    · rw [moveToPreviousInstruction_of_le s h]
      intro i x hx hact
      show (i : Int) = 0
      have hx' : (s.instructions.map (fun instruction =>
          markInstructionAsIdle instruction))[i]? = some x := hx
      rw [List.getElem?_map, Option.map_eq_some'] at hx'
      obtain ⟨y, hy, hfy⟩ := hx'
      subst hfy
      exact absurd hact (not_isActive_markIdle y)
  | WaitForResponse =>
    rw [transition_waitForResponse]
    intro i x hx hact
    show (i : Int) = s.currentInstructionIndex
    have hx' : (s.instructions.map (fun instruction =>
        if instruction.state = InstructionState.InProgress then
          markInstructionAsWaitingResponse instruction
        else instruction))[i]? = some x := hx
    rw [List.getElem?_map, Option.map_eq_some'] at hx'
    obtain ⟨y, hy, hfy⟩ := hx'
    by_cases h0 : y.state = InstructionState.InProgress
    · exact hs i y hy (Or.inl h0)
    · rw [if_neg h0] at hfy
      subst hfy
      exact hs i y hy hact
  | ResetLesson =>
    rw [transition_resetLesson]
    intro i x hx hact
    show (i : Int) = 0
    have hx' : (s.instructions.map (fun instruction =>
        markInstructionAsIdle instruction))[i]? = some x := hx
    rw [List.getElem?_map, Option.map_eq_some'] at hx'
    obtain ⟨y, hy, hfy⟩ := hx'
    subst hfy
    exact absurd hact (not_isActive_markIdle y)
  | CompleteLesson =>
    rw [transition_completeLesson]
    intro i x hx hact
    show (i : Int) = s.currentInstructionIndex
    have hx' : (s.instructions.map (fun instruction =>
        markInstructionAsCompleted now instruction))[i]? = some x := hx
    rw [List.getElem?_map, Option.map_eq_some'] at hx'
    obtain ⟨y, hy, hfy⟩ := hx'
    subst hfy
    exact absurd hact (not_isActive_markCompleted now y)

theorem inv_runActions (s : LessonContextState)
    (hs : ActiveOnlyAtCurrent s) (acts : List (LessonContextActions × Nat)) :
    ActiveOnlyAtCurrent (runActions s acts) := by
  induction acts generalizing s with
  | nil => exact hs
  | cons p rest ih =>
    obtain ⟨a, now⟩ := p
    exact ih (transition s a now) (inv_preserved s a now hs)

/-- Claim C2: starting from an initial session (status Idle, every instruction
Idle, currentIndex 0), after any finite sequence of reducer actions at most
one instruction is InProgress or WaitingResponse. -/
theorem c2_at_most_one_active (init : LessonContextState)
    (h1 : init.state = LessonState.Idle)
    (h2 : init.currentInstructionIndex = 0)
    (h3 : ∀ ins ∈ init.instructions, ins.state = InstructionState.Idle)
    (acts : List (LessonContextActions × Nat)) :
    AtMostOneActive (runActions init acts) := by
  have hinv : ActiveOnlyAtCurrent init := by
    intro i x hx hact
    exact absurd hact (not_isActive_of_idle x (h3 x (List.getElem?_mem hx)))
  have hrun := inv_runActions init hinv acts
  intro i j a b ha hb hai hbi
  have hi := hrun i a ha hai
  have hj := hrun j b hb hbi
  omega

/-- Witness for C2 at a concrete fresh session and a concrete action list. -/
theorem c2_at_most_one_active_witness :
    AtMostOneActive (runActions freshSession
      [(LessonContextActions.StartLesson, 0),
        (LessonContextActions.WaitForResponse, 1),
        (LessonContextActions.MoveToNext, 2)]) :=
  c2_at_most_one_active freshSession rfl rfl (by decide)
    [(LessonContextActions.StartLesson, 0),
      (LessonContextActions.WaitForResponse, 1),
      (LessonContextActions.MoveToNext, 2)]
